import Mathlib

/-!
Verification model of the sanfu membership/offering service.

The relational store (PostgreSQL) is modelled as an explicit `DB` value:
lists of rows plus the store-generated counters and clock.  Every
data-access function of `src/backend/db.py` is translated into a
`*_run` definition that threads the database state, an injected
store-failure oracle `failAt` (the index of the SQL statement whose
execution raises a store error, if any), and the observable connection
facts needed by the resource-safety claims: whether the connection was
closed before the call returned and whether an explicit rollback was
issued.  Pure wrappers (`create_member`, `delete_member`, ...) fix
`failAt := none`.  `src/backend/app.py` handlers and the legacy
`src/app.py` script functions are translated in namespaces `Api` and
`Legacy`.
-/

namespace Sanfu

/-- A row of a lookup table (`membership_levels` / `interview_statuses`):
numeric id and unique string code. -/
structure LookupRow where
  id : Int
  code : String
deriving DecidableEq, Repr

/-- A `members` row.  `id` is the store-generated identifier (a uuid in the
real schema, modelled as a number drawn from `DB.next_member_id`);
`birthdate` is an opaque date and `basic_info` an opaque document. -/
structure MemberRow where
  id : Nat
  name : String
  membership_level_id : Option Int
  interview_status_id : Option Int
  gender : Option String
  birthdate : Option Nat
  phone : Option String
  email : Option String
  basic_info : Option String
  created_at : Nat
deriving DecidableEq, Repr

/-- An `offerings` row.  `amount` is nullable in the store, hence `Option`;
numeric values are modelled as rationals. -/
structure OfferingRow where
  id : Nat
  member_id : Nat
  amount : Option ℚ
  currency : String
  donated_at : Nat
  note : String
deriving DecidableEq, Repr

/-- The relational store state: the four tables, the store-generated id
counters and the store clock (used for `created_at` / `donated_at`
defaults). -/
structure DB where
  membership_levels : List LookupRow
  interview_statuses : List LookupRow
  members : List MemberRow
  offerings : List OfferingRow
  next_member_id : Nat
  next_offering_id : Nat
  now : Nat
deriving DecidableEq, Repr

/-- Failure taxonomy of the data-access layer: `unknownCode` is the
`ValueError` raised by `_resolve_lookup_id`, `constraintViolation` a
store integrity rejection, `storeError` any other store-level failure. -/
inductive DbError where
  | unknownCode (table : String) (value : String)
  | constraintViolation (msg : String)
  | storeError (msg : String)
deriving DecidableEq, Repr

/-- Outcome of running one data-access function: its result, the committed
database after the call, and the two connection facts tracked for the
resource-safety claims. -/
structure RunResult (α : Type) where
  result : Except DbError α
  db : DB
  conn_closed : Bool
  rolled_back : Bool
deriving Repr

/-- The member record returned to clients: `{"id": ..., "name": ...}`. -/
structure MemberOut where
  id : Nat
  name : String
deriving DecidableEq, Repr

/-- The offering record returned to clients (`_offering_row_to_dict`). -/
structure OfferingOut where
  id : Nat
  amount : Option ℚ
  currency : String
  donated_at : Nat
  note : String
deriving DecidableEq, Repr

/-- Result of `get_offerings_for_member`:
`{"member_id": ..., "total": ..., "log": [...]}`. -/
structure OfferingLog where
  member_id : Nat
  total : ℚ
  log : List OfferingOut
deriving DecidableEq, Repr

/-- Translation of `_member_row_to_dict` (src/backend/db.py): keep id and
name. -/
def _member_row_to_dict (row : MemberRow) : MemberOut :=
  ⟨row.id, row.name⟩

/-- Translation of `_offering_row_to_dict` (src/backend/db.py); the
`_to_float` numeric conversion is the identity in this model. -/
def _offering_row_to_dict (row : OfferingRow) : OfferingOut :=
  ⟨row.id, row.amount, row.currency, row.donated_at, row.note⟩

/-- Round-half-to-even integer rounding, the rounding rule of Python's
builtin `round`. -/
def roundHalfEven (q : ℚ) : ℤ :=
  let n := ⌊q⌋
  let frac := q - n
  if frac < 1 / 2 then n
  else if 1 / 2 < frac then n + 1
  else if n % 2 = 0 then n else n + 1

/-- `round(x, 2)`: round to 2 decimal places. -/
def round2 (q : ℚ) : ℚ :=
  (roundHalfEven (q * 100) : ℚ) / 100

/-- Failure-injection oracle: the store raises a generic error on the
`k`-th SQL statement of the call iff `failAt = some k`. -/
def stmtFails (failAt : Option Nat) (k : Nat) : Bool :=
  failAt == some k

/-- `true` iff an `Except` outcome is a success. -/
def isOk {ε α : Type} : Except ε α → Bool
  | .ok _ => true
  | .error _ => false

instance {ε α : Type} [DecidableEq ε] [DecidableEq α] :
    DecidableEq (Except ε α) := fun x y =>
  match x, y with
  | .ok a, .ok b =>
    if h : a = b then .isTrue (by rw [h])
    else .isFalse (fun hh => h (Except.ok.inj hh))
  | .ok _, .error _ => .isFalse (fun hh => Except.noConfusion hh)
  | .error _, .ok _ => .isFalse (fun hh => Except.noConfusion hh)
  | .error e, .error f =>
    if h : e = f then .isTrue (by rw [h])
    else .isFalse (fun hh => h (Except.error.inj hh))

/-- ASCII lowercasing of one code point, the effect of the store's
`lower()` on basic latin letters (PostgreSQL `ILIKE` compares both
sides lowercased): code points 65-90 are shifted by 32, everything else
is unchanged. -/
def lowerChar (c : Char) : Char :=
  if 65 ≤ c.toNat ∧ c.toNat ≤ 90 then Char.ofNat (c.toNat + 32) else c

/-- Lowercase a string, as a list of code points. -/
def lowerStr (s : String) : List Char :=
  s.toList.map lowerChar

/-- SQL `LIKE` pattern matching on code points with the PostgreSQL
wildcards: `%` matches any sequence (the rest of the pattern must match
some suffix of the string), `_` matches any single character, and a
backslash (the default escape character) makes the following pattern
character literal.  `ILIKE` is `LIKE` after lowercasing both pattern
and string. -/
def likeMatch : List Char → List Char → Bool
  | [], s => s.isEmpty
  | p :: ps, s =>
    if p = '%' then
      s.tails.any (fun s2 => likeMatch ps s2)
    else if p = '_' then
      (match s with
       | [] => false
       | _ :: s2 => likeMatch ps s2)
    else if p = '\\' then
      (match s with
       | [] => false
       | c :: s2 =>
         match ps with
         | [] => false
         | q :: ps2 => q == c && likeMatch ps2 s2)
    else
      (match s with
       | [] => false
       | c :: s2 => p == c && likeMatch ps s2)

/-- The `ILIKE` pattern built by `search_members_by_name`, already
lowercased: `f"%{term}%"`. -/
def likePattern (term : String) : List Char :=
  '%' :: lowerStr term ++ [ '%' ]

/-- `ORDER BY created_at` comparison on member rows. -/
def byCreated (a b : MemberRow) : Prop := a.created_at ≤ b.created_at

instance : DecidableRel byCreated := fun _ _ => Nat.decLe _ _

instance : IsTotal MemberRow byCreated := ⟨fun _ _ => Nat.le_total _ _⟩

instance : IsTrans MemberRow byCreated := ⟨fun _ _ _ => Nat.le_trans⟩

/-- `ORDER BY name` comparison on member rows. -/
def byName (a b : MemberRow) : Prop := a.name ≤ b.name

instance : DecidableRel byName :=
  fun a b => inferInstanceAs (Decidable (a.name ≤ b.name))

instance : IsTotal MemberRow byName := ⟨fun a b => le_total a.name b.name⟩

instance : IsTrans MemberRow byName := ⟨fun _ _ _ => le_trans⟩

/-- `ORDER BY donated_at DESC` comparison on offering rows. -/
def byDonatedDesc (a b : OfferingRow) : Prop := b.donated_at ≤ a.donated_at

instance : DecidableRel byDonatedDesc := fun _ _ => Nat.decLe _ _

instance : IsTotal OfferingRow byDonatedDesc := ⟨fun _ _ => Nat.le_total _ _⟩

instance : IsTrans OfferingRow byDonatedDesc :=
  ⟨fun _ _ _ h1 h2 => Nat.le_trans h2 h1⟩

/-- Modelled from the spec: the store's foreign-key check for a nullable
lookup reference (the schema itself is outside `src/`; the spec assumes
the store enforces foreign keys). -/
def lookupIdExists (tbl : List LookupRow) : Option Int → Bool
  | none => true
  | some i => tbl.any (fun r => r.id == i)

/-- Translation of `_resolve_lookup_id` (src/backend/db.py, lines 46-64),
with failure injection: `k` is the index of the next SQL statement of
the enclosing call.  `none` is returned unchanged; an integer is
returned unchanged without any existence check; a string code is looked
up by exact match and an unknown code raises the `ValueError`
(`unknownCode`). -/
def resolve_lookup_run (tbl : List LookupRow) (tname : String)
    (value : Option (Int ⊕ String)) (failAt : Option Nat) (k : Nat) :
    Except DbError (Option Int) × Nat :=
  match value with
  | none => (.ok none, k)
  | some (.inl i) => (.ok (some i), k)
  | some (.inr s) =>
    if stmtFails failAt k then (.error (.storeError "execute failed"), k + 1)
    else
      match tbl.find? (fun r => r.code == s) with
      | none => (.error (.unknownCode tname s), k + 1)
      | some r => (.ok (some r.id), k + 1)

/-- Pure `_resolve_lookup_id`: no injected store failure. -/
def _resolve_lookup_id (tbl : List LookupRow) (tname : String)
    (value : Option (Int ⊕ String)) : Except DbError (Option Int) :=
  (resolve_lookup_run tbl tname value none 0).1

/-- Translation of `get_all_members` (src/backend/db.py, lines 68-75).
There is no `try`/`finally`: the cursor and connection are closed only
after a successful fetch, so an injected store error propagates with the
connection still open. -/
def get_all_members_run (db : DB) (failAt : Option Nat) :
    RunResult (List MemberOut) :=
  if stmtFails failAt 0 then
    ⟨.error (.storeError "execute failed"), db, false, false⟩
  else
    let rows := List.insertionSort byCreated db.members
    ⟨.ok (rows.map _member_row_to_dict), db, true, false⟩

/-- Pure `get_all_members`. -/
def get_all_members (db : DB) : Except DbError (List MemberOut) :=
  (get_all_members_run db none).result

/-- Translation of `search_members_by_name` (src/backend/db.py, lines
78-88): `name ILIKE %term% ORDER BY name`, again without `try`/`finally`. -/
def search_members_by_name_run (db : DB) (term : String) (failAt : Option Nat) :
    RunResult (List MemberOut) :=
  if stmtFails failAt 0 then
    ⟨.error (.storeError "execute failed"), db, false, false⟩
  else
    let rows := List.insertionSort byName
      (db.members.filter (fun m => likeMatch (likePattern term) (lowerStr m.name)))
    ⟨.ok (rows.map _member_row_to_dict), db, true, false⟩

/-- Pure `search_members_by_name`. -/
def search_members_by_name (db : DB) (term : String) :
    Except DbError (List MemberOut) :=
  (search_members_by_name_run db term none).result

/-- Translation of `get_member_id_by_name` (src/backend/db.py, lines
91-98), without `try`/`finally`. -/
def get_member_id_by_name_run (db : DB) (name : String) (failAt : Option Nat) :
    RunResult (Option Nat) :=
  if stmtFails failAt 0 then
    ⟨.error (.storeError "execute failed"), db, false, false⟩
  else
    match db.members.find? (fun m => m.name == name) with
    | some m => ⟨.ok (some m.id), db, true, false⟩
    | none => ⟨.ok none, db, true, false⟩

/-- Pure `get_member_id_by_name`. -/
def get_member_id_by_name (db : DB) (name : String) :
    Except DbError (Option Nat) :=
  (get_member_id_by_name_run db name none).result

/-- Translation of `create_member` (src/backend/db.py, lines 101-153):
resolve both lookup values, insert the member row, commit; on any
failure roll back and re-raise; the `finally` closes the connection on
every path.  The store-side foreign-key check on the resolved ids is
`lookupIdExists` (a forged numeric id is only caught here). -/
def create_member_run (db : DB) (name : String)
    (membership_level interview_status : Option (Int ⊕ String))
    (gender : Option String) (birthdate : Option Nat)
    (phone : Option String) (email : Option String)
    (basic_info : Option String) (failAt : Option Nat) :
    RunResult MemberOut :=
  match resolve_lookup_run db.membership_levels "membership_levels"
      membership_level failAt 0 with
  | (.error e, _) => ⟨.error e, db, true, true⟩
  | (.ok level_id, k1) =>
    match resolve_lookup_run db.interview_statuses "interview_statuses"
        interview_status failAt k1 with
    | (.error e, _) => ⟨.error e, db, true, true⟩
    | (.ok status_id, k2) =>
      if stmtFails failAt k2 then
        ⟨.error (.storeError "execute failed"), db, true, true⟩
      else if !(lookupIdExists db.membership_levels level_id &&
                lookupIdExists db.interview_statuses status_id) then
        ⟨.error (.constraintViolation "foreign key violation"), db, true, true⟩
      else
        let row : MemberRow :=
          ⟨db.next_member_id, name, level_id, status_id, gender, birthdate,
            phone, email, basic_info, db.now⟩
        ⟨.ok ⟨row.id, row.name⟩,
          { db with
            members := db.members ++ [row],
            next_member_id := db.next_member_id + 1 },
          true, false⟩

/-- Pure `create_member`: the result together with the committed database. -/
def create_member (db : DB) (name : String)
    (membership_level interview_status : Option (Int ⊕ String))
    (gender : Option String) (birthdate : Option Nat)
    (phone : Option String) (email : Option String)
    (basic_info : Option String) : Except DbError MemberOut × DB :=
  let r := create_member_run db name membership_level interview_status
    gender birthdate phone email basic_info none
  (r.result, r.db)

/-- Translation of `delete_member` (src/backend/db.py, lines 156-174):
delete the member's offerings, then the member row, commit, and return
the row count of the member delete; on failure roll back and re-raise;
`finally` closes the connection.  The member delete would be rejected by
the store's foreign-key check if offerings still referenced a deleted
member, which the preceding offerings delete makes impossible. -/
def delete_member_run (db : DB) (member_id : Nat) (failAt : Option Nat) :
    RunResult Nat :=
  if stmtFails failAt 0 then
    ⟨.error (.storeError "execute failed"), db, true, true⟩
  else
    let t1 : DB :=
      { db with offerings := db.offerings.filter (fun o => !(o.member_id == member_id)) }
    if stmtFails failAt 1 then
      ⟨.error (.storeError "execute failed"), db, true, true⟩
    else if t1.offerings.any (fun o => o.member_id == member_id) &&
        t1.members.any (fun m => m.id == member_id) then
      ⟨.error (.constraintViolation "foreign key violation"), db, true, true⟩
    else
      let deleted := t1.members.countP (fun m => m.id == member_id)
      ⟨.ok deleted,
        { t1 with members := t1.members.filter (fun m => !(m.id == member_id)) },
        true, false⟩

/-- Pure `delete_member`. -/
def delete_member (db : DB) (member_id : Nat) : Except DbError Nat × DB :=
  let r := delete_member_run db member_id none
  (r.result, r.db)

/-- Modelled from the spec: the store-assigned default for the `currency`
column (the schema is outside `src/`). -/
def defaultCurrency : String := "TWD"

/-- Translation of `add_offering` (src/backend/db.py, lines 178-214):
insert one offering row (with or without an explicit `donated_at`),
commit and return the persisted row; on failure roll back and re-raise;
`finally` closes the connection.  Inserting for a nonexistent member is
rejected by the store's foreign-key check. -/
def add_offering_run (db : DB) (member_id : Nat) (amount : ℚ) (note : String)
    (donated_at : Option Nat) (failAt : Option Nat) : RunResult OfferingOut :=
  if stmtFails failAt 0 then
    ⟨.error (.storeError "execute failed"), db, true, true⟩
  else if !(db.members.any (fun m => m.id == member_id)) then
    ⟨.error (.constraintViolation "foreign key violation"), db, true, true⟩
  else
    let row : OfferingRow :=
      match donated_at with
      | none =>
        ⟨db.next_offering_id, member_id, some amount, defaultCurrency, db.now, note⟩
      | some d =>
        ⟨db.next_offering_id, member_id, some amount, defaultCurrency, d, note⟩
    ⟨.ok (_offering_row_to_dict row),
      { db with
        offerings := db.offerings ++ [row],
        next_offering_id := db.next_offering_id + 1 },
      true, false⟩

/-- Pure `add_offering`. -/
def add_offering (db : DB) (member_id : Nat) (amount : ℚ) (note : String)
    (donated_at : Option Nat) : Except DbError OfferingOut × DB :=
  let r := add_offering_run db member_id amount note donated_at none
  (r.result, r.db)

/-- Translation of `get_offerings_for_member` (src/backend/db.py, lines
217-238): select the member's offerings ordered by `donated_at DESC`,
map them to records, and sum their amounts (null as 0) rounded to two
decimals.  There is a `finally` (so the connection is always closed) but
no `except` clause, hence no explicit rollback on failure. -/
def get_offerings_for_member_run (db : DB) (member_id : Nat)
    (failAt : Option Nat) : RunResult OfferingLog :=
  if stmtFails failAt 0 then
    ⟨.error (.storeError "execute failed"), db, true, false⟩
  else
    let rows := List.insertionSort byDonatedDesc
      (db.offerings.filter (fun o => o.member_id == member_id))
    let log := rows.map _offering_row_to_dict
    let total := round2 ((log.map (fun o => o.amount.getD 0)).sum)
    ⟨.ok ⟨member_id, total, log⟩, db, true, false⟩

/-- Pure `get_offerings_for_member`. -/
def get_offerings_for_member (db : DB) (member_id : Nat) : OfferingLog :=
  match (get_offerings_for_member_run db member_id none).result with
  | .ok r => r
  | .error _ => ⟨member_id, 0, []⟩

namespace Api

/-- An HTTP response of the backend API (src/backend/app.py): status code,
optional success body, and the `detail` string of an `HTTPException`. -/
structure Resp (α : Type) where
  status : Nat
  body : Option α
  detail : String
deriving DecidableEq, Repr

/-- The `str(ve)` detail exposed on the 400 path of `api_add_member`:
the message of the `ValueError` raised by `_resolve_lookup_id`. -/
def unknown_code_detail (table value : String) : String :=
  "Unknown code in " ++ table ++ ": " ++ value

/-- The `except` clauses of `api_add_member` (src/backend/app.py, lines
98-117): `ValueError` (unknown code) becomes 400 with the error text,
any other exception becomes 500 with a fixed generic message. -/
def api_add_member_translate (r : Except DbError MemberOut) : Resp MemberOut :=
  match r with
  | .ok m => ⟨201, some m, ""⟩
  | .error (.unknownCode t v) => ⟨400, none, unknown_code_detail t v⟩
  | .error _ => ⟨500, none, "Failed to create member"⟩

/-- The endpoint `POST /members`: run `create_member` and translate. -/
def api_add_member (db : DB) (name : String)
    (membership_level interview_status : Option (Int ⊕ String))
    (gender : Option String) (birthdate : Option Nat)
    (phone : Option String) (email : Option String)
    (basic_info : Option String) (failAt : Option Nat) :
    Resp MemberOut × DB :=
  let r := create_member_run db name membership_level interview_status
    gender birthdate phone email basic_info failAt
  (api_add_member_translate r.result, r.db)

/-- The `except` clause of `api_add_offering` (src/backend/app.py, lines
134-145): every exception becomes 400 with a fixed generic message. -/
def api_add_offering_translate (r : Except DbError OfferingOut) :
    Resp OfferingOut :=
  match r with
  | .ok o => ⟨201, some o, ""⟩
  | .error _ => ⟨400, none, "Failed to add offering"⟩

/-- The endpoint `POST /offerings`: note is `body.note or ""`. -/
def api_add_offering (db : DB) (member_id : Nat) (amount : ℚ)
    (note : Option String) (donated_at : Option Nat) (failAt : Option Nat) :
    Resp OfferingOut × DB :=
  let r := add_offering_run db member_id amount (note.getD "") donated_at failAt
  (api_add_offering_translate r.result, r.db)

/-- The `except` clause of `api_member_offerings` (src/backend/app.py,
lines 148-154): every exception becomes 400 with a fixed generic
message. -/
def api_member_offerings_translate (r : Except DbError OfferingLog) :
    Resp OfferingLog :=
  match r with
  | .ok l => ⟨200, some l, ""⟩
  | .error _ => ⟨400, none, "Failed to fetch offerings"⟩

/-- The endpoint `GET /members/{member_id}/offerings`. -/
def api_member_offerings (db : DB) (member_id : Nat) (failAt : Option Nat) :
    Resp OfferingLog :=
  api_member_offerings_translate (get_offerings_for_member_run db member_id failAt).result

end Api

namespace Legacy

/-- Translation of `delete_member` from the legacy script `src/app.py`
(lines 78-95): delete offerings, delete the member, commit; the bare
`except` catches every exception, rolls back, prints, and falls through,
so the function returns `None` (here `()`) on every path and never
propagates a failure; `finally` closes the connection. -/
def delete_member_run (db : DB) (member_id : Nat) (failAt : Option Nat) :
    RunResult Unit :=
  if stmtFails failAt 0 then ⟨.ok (), db, true, true⟩
  else
    let t1 : DB :=
      { db with offerings := db.offerings.filter (fun o => !(o.member_id == member_id)) }
    if stmtFails failAt 1 then ⟨.ok (), db, true, true⟩
    else if t1.offerings.any (fun o => o.member_id == member_id) &&
        t1.members.any (fun m => m.id == member_id) then
      ⟨.ok (), db, true, true⟩
    else
      ⟨.ok (),
        { t1 with members := t1.members.filter (fun m => !(m.id == member_id)) },
        true, false⟩

/-- A JSON status response of the legacy API. -/
structure StatusResp where
  status : Nat
  body : String
deriving DecidableEq, Repr

/-- The legacy endpoint `DELETE /members/{member_id}` (src/app.py, lines
204-207): call `delete_member`, ignore its (always-`None`) outcome, and
respond `{"status": "deleted"}` with the FastAPI default status 200. -/
def api_delete_member (db : DB) (member_id : Nat) (failAt : Option Nat) :
    StatusResp × DB :=
  let r := delete_member_run db member_id failAt
  (⟨200, "deleted"⟩, r.db)

end Legacy

/-- A small concrete store used by the witnesses below. -/
def dbEx : DB :=
  { membership_levels := [⟨1, "participant"⟩, ⟨2, "fullmember"⟩]
    interview_statuses := [⟨1, "undecided"⟩, ⟨2, "passed"⟩]
    members := [⟨10, "Alice", some 1, some 1, none, none, none, none, none, 5⟩,
                ⟨11, "aMeiCa", some 2, some 2, none, none, none, none, none, 6⟩,
                ⟨12, "abc", none, none, none, none, none, none, none, 7⟩]
    offerings := [⟨100, 10, some 50, "TWD", 7, ""⟩,
                  ⟨101, 10, some (51 / 2), "TWD", 9, ""⟩,
                  ⟨102, 11, none, "TWD", 8, ""⟩]
    next_member_id := 13
    next_offering_id := 103
    now := 20 }

/-- `containsSub t s`: `t` occurs as a contiguous sublist of `s`. -/
def containsSub (t s : List Char) : Bool :=
  s.tails.any (fun suf => t.isPrefixOf suf)

/-- Stated from the specification, for comparison with the code's `ILIKE`
filter: the name contains the term as a case-insensitive substring. -/
def name_contains_ci (name term : String) : Bool :=
  containsSub (lowerStr term) (lowerStr name)

/-- A pattern fragment with no `%`, `_` or escape character: `LIKE`
treats every such character literally. -/
def wildFree (t : List Char) : Prop :=
  ∀ c ∈ t, c ≠ '%' ∧ c ≠ '_' ∧ c ≠ '\\'

/-! ## Helper lemmas -/

/-- In a lookup table with pairwise distinct codes, the code query finds
exactly the member row carrying that code. -/
theorem find?_code_eq_some (tbl : List LookupRow) (r : LookupRow) (s : String)
    (hnd : (tbl.map LookupRow.code).Nodup) (hm : r ∈ tbl) (hc : r.code = s) :
    tbl.find? (fun x => x.code == s) = some r := by
  induction tbl with
  | nil => cases hm
  | cons a l ih =>
    simp only [List.map_cons, List.nodup_cons] at hnd
    rcases List.mem_cons.mp hm with h | h
    · subst h
      simp [List.find?_cons_of_pos, hc]
    · have hne : ¬ ((a.code == s) = true) := by
        intro hb
        have ha : a.code = s := by simpa using hb
        exact hnd.1 (by
          rw [ha, ← hc]
          exact List.mem_map_of_mem _ h)
      have hb : (a.code == s) = false := by
        exact Bool.not_eq_true _ ▸ eq_false_of_ne_true hne
      rw [List.find?_cons, hb]
      exact ih hnd.2 h

/-- The result of a resolve does not depend on the statement counter when
no failure is injected. -/
theorem resolve_lookup_run_none_fst (tbl : List LookupRow) (tname : String)
    (value : Option (Int ⊕ String)) (k : Nat) :
    (resolve_lookup_run tbl tname value none k).1
      = _resolve_lookup_id tbl tname value := by
  cases value with
  | none => rfl
  | some v =>
    cases v with
    | inl i => rfl
    | inr s =>
      simp only [_resolve_lookup_id, resolve_lookup_run, stmtFails]
      cases tbl.find? (fun r => r.code == s) <;> rfl

/-!  ## Claims -/

/-- C5: `_resolve_lookup_id` returns an absent result when the value is
absent, returns an integer id unchanged without validating its
existence, returns the id of the row whose code matches a string value
exactly, and fails with `UnknownCode` when no row carries that code. -/
theorem claim_C5_resolve_lookup (tbl : List LookupRow) (tname : String)
    (i : Int) (r : LookupRow) (s2 : String)
    (hnd : (tbl.map LookupRow.code).Nodup) (hm : r ∈ tbl)
    (habs : ∀ x ∈ tbl, x.code ≠ s2) :
    _resolve_lookup_id tbl tname none = .ok none ∧
    _resolve_lookup_id tbl tname (some (.inl i)) = .ok (some i) ∧
    _resolve_lookup_id tbl tname (some (.inr r.code)) = .ok (some r.id) ∧
    _resolve_lookup_id tbl tname (some (.inr s2))
      = .error (.unknownCode tname s2) := by
  refine ⟨rfl, rfl, ?_, ?_⟩
  · simp [_resolve_lookup_id, resolve_lookup_run, stmtFails,
      find?_code_eq_some tbl r r.code hnd hm rfl]
  · have hnone : tbl.find? (fun x => x.code == s2) = none := by
      rw [List.find?_eq_none]
      intro x hx
      simpa using habs x hx
    simp [_resolve_lookup_id, resolve_lookup_run, stmtFails, hnone]

/-- Witness for C5 at a concrete table. -/
theorem claim_C5_resolve_lookup_witness :
    (dbEx.membership_levels.map LookupRow.code).Nodup ∧
    (⟨1, "participant"⟩ : LookupRow) ∈ dbEx.membership_levels ∧
    (∀ x ∈ dbEx.membership_levels, x.code ≠ "zzz") ∧
    (_resolve_lookup_id dbEx.membership_levels "membership_levels" none
        = .ok none ∧
      _resolve_lookup_id dbEx.membership_levels "membership_levels"
          (some (.inl 7)) = .ok (some 7) ∧
      _resolve_lookup_id dbEx.membership_levels "membership_levels"
          (some (.inr "participant")) = .ok (some 1) ∧
      _resolve_lookup_id dbEx.membership_levels "membership_levels"
          (some (.inr "zzz"))
        = .error (.unknownCode "membership_levels" "zzz")) :=
  ⟨by decide, by decide, by decide,
    claim_C5_resolve_lookup dbEx.membership_levels "membership_levels" 7
      ⟨1, "participant"⟩ "zzz" (by decide) (by decide) (by decide)⟩

/-- C1: when `membership_level` is an unknown code string, `create_member`
fails with `UnknownCode` and the committed database is unchanged (the
transaction is rolled back, so no member row is persisted and a
subsequent list sees nothing); the same holds for an unknown
`interview_status` code whenever the membership level itself resolves. -/
theorem claim_C1_create_member_unknown_code (db : DB) (name2 : String)
    (c c2 : String) (ist lvl : Option (Int ⊕ String)) (lid : Option Int)
    (g : Option String) (b : Option Nat) (p e bi : Option String)
    (h1 : ∀ x ∈ db.membership_levels, x.code ≠ c)
    (h2 : _resolve_lookup_id db.membership_levels "membership_levels" lvl
        = .ok lid)
    (h3 : ∀ x ∈ db.interview_statuses, x.code ≠ c2) :
    create_member db name2 (some (.inr c)) ist g b p e bi
      = (.error (.unknownCode "membership_levels" c), db) ∧
    create_member db name2 lvl (some (.inr c2)) g b p e bi
      = (.error (.unknownCode "interview_statuses" c2), db) ∧
    get_all_members (create_member db name2 (some (.inr c)) ist g b p e bi).2
      = get_all_members db ∧
    get_all_members (create_member db name2 lvl (some (.inr c2)) g b p e bi).2
      = get_all_members db := by
  have hnone1 : db.membership_levels.find? (fun x => x.code == c) = none := by
    rw [List.find?_eq_none]
    intro x hx
    simpa using h1 x hx
  have hnone2 : db.interview_statuses.find? (fun x => x.code == c2) = none := by
    rw [List.find?_eq_none]
    intro x hx
    simpa using h3 x hx
  have part1 : create_member db name2 (some (.inr c)) ist g b p e bi
      = (.error (.unknownCode "membership_levels" c), db) := by
    simp [create_member, create_member_run, resolve_lookup_run, stmtFails, hnone1]
  have part2 : create_member db name2 lvl (some (.inr c2)) g b p e bi
      = (.error (.unknownCode "interview_statuses" c2), db) := by
    rcases hres : resolve_lookup_run db.membership_levels "membership_levels"
        lvl none 0 with ⟨r1, k1⟩
    have hr1 : r1 = .ok lid := by
      have hfst := resolve_lookup_run_none_fst db.membership_levels
        "membership_levels" lvl 0
      rw [hres] at hfst
      exact hfst.trans h2
    subst hr1
    simp only [create_member, create_member_run, hres]
    simp [resolve_lookup_run, stmtFails, hnone2]
  refine ⟨part1, part2, ?_, ?_⟩
  · rw [part1]
  · rw [part2]

/-- Witness for C1 at a concrete store and codes. -/
theorem claim_C1_create_member_unknown_code_witness :
    (∀ x ∈ dbEx.membership_levels, x.code ≠ "nosuch") ∧
    (_resolve_lookup_id dbEx.membership_levels "membership_levels"
        (some (.inl 1)) = .ok (some 1)) ∧
    (∀ x ∈ dbEx.interview_statuses, x.code ≠ "nada") ∧
    (create_member dbEx "Bob" (some (.inr "nosuch")) none none none none none none
        = (.error (.unknownCode "membership_levels" "nosuch"), dbEx) ∧
      create_member dbEx "Bob" (some (.inl 1)) (some (.inr "nada")) none none none none none
        = (.error (.unknownCode "interview_statuses" "nada"), dbEx) ∧
      get_all_members (create_member dbEx "Bob" (some (.inr "nosuch")) none none none none none none).2
        = get_all_members dbEx ∧
      get_all_members (create_member dbEx "Bob" (some (.inl 1)) (some (.inr "nada")) none none none none none).2
        = get_all_members dbEx) :=
  ⟨by decide, by decide, by decide,
    claim_C1_create_member_unknown_code dbEx "Bob" "nosuch" "nada" none
      (some (.inl 1)) (some 1) none none none none none
      (by decide) (by decide) (by decide)⟩

/-- C6: for codes present in their lookup tables, creating a member with
the code strings commits exactly the same result and store state as
creating it with the corresponding numeric ids: code resolution and the
identity on ids land on the same lookup row. -/
theorem claim_C6_code_id_same_row (db : DB) (name2 : String)
    (rl rs : LookupRow) (g : Option String) (b : Option Nat)
    (p e bi : Option String)
    (hnd1 : (db.membership_levels.map LookupRow.code).Nodup)
    (hnd2 : (db.interview_statuses.map LookupRow.code).Nodup)
    (hm1 : rl ∈ db.membership_levels) (hm2 : rs ∈ db.interview_statuses) :
    create_member db name2 (some (.inr rl.code)) (some (.inr rs.code))
        g b p e bi
      = create_member db name2 (some (.inl rl.id)) (some (.inl rs.id))
        g b p e bi ∧
    _resolve_lookup_id db.membership_levels "membership_levels"
        (some (.inr rl.code))
      = _resolve_lookup_id db.membership_levels "membership_levels"
        (some (.inl rl.id)) := by
  constructor
  · simp [create_member, create_member_run, resolve_lookup_run, stmtFails,
      find?_code_eq_some db.membership_levels rl rl.code hnd1 hm1 rfl,
      find?_code_eq_some db.interview_statuses rs rs.code hnd2 hm2 rfl]
  · simp [_resolve_lookup_id, resolve_lookup_run, stmtFails,
      find?_code_eq_some db.membership_levels rl rl.code hnd1 hm1 rfl]

/-- Witness for C6 at a concrete store. -/
theorem claim_C6_code_id_same_row_witness :
    (dbEx.membership_levels.map LookupRow.code).Nodup ∧
    (dbEx.interview_statuses.map LookupRow.code).Nodup ∧
    (⟨1, "participant"⟩ : LookupRow) ∈ dbEx.membership_levels ∧
    (⟨2, "passed"⟩ : LookupRow) ∈ dbEx.interview_statuses ∧
    (create_member dbEx "Cara" (some (.inr "participant")) (some (.inr "passed"))
        none none none none none
      = create_member dbEx "Cara" (some (.inl 1)) (some (.inl 2))
        none none none none none ∧
    _resolve_lookup_id dbEx.membership_levels "membership_levels"
        (some (.inr "participant"))
      = _resolve_lookup_id dbEx.membership_levels "membership_levels"
        (some (.inl 1))) :=
  ⟨by decide, by decide, by decide, by decide,
    claim_C6_code_id_same_row dbEx "Cara" ⟨1, "participant"⟩ ⟨2, "passed"⟩
      none none none none none (by decide) (by decide) (by decide) (by decide)⟩

/-- With pairwise distinct member ids, the member-delete row count is 1
when the id is present and 0 otherwise. -/
theorem countP_id_of_nodup (l : List MemberRow) (mid : Nat)
    (hnd : (l.map (fun m => m.id)).Nodup) :
    l.countP (fun m => m.id == mid)
      = if l.any (fun m => m.id == mid) then 1 else 0 := by
  induction l with
  | nil => simp
  | cons a t ih =>
    simp only [List.map_cons, List.nodup_cons] at hnd
    by_cases h : a.id = mid
    · have ht : t.countP (fun m => m.id == mid) = 0 := by
        rw [List.countP_eq_zero]
        intro x hx hbx
        exact hnd.1 (by
          have hxid : x.id = mid := by simpa using hbx
          rw [h, ← hxid]
          exact List.mem_map_of_mem _ hx)
      simp [List.countP_cons, List.any_cons, h, ht]
    · simp [List.countP_cons, List.any_cons, h, ih hnd.2]

/-- C2: `delete_member` commits a state in which the member's offerings
and then the member row are gone, returns 1 when the member row existed
and 0 when it did not, and a repeated call on the committed state
returns 0. -/
theorem claim_C2_delete_member (db : DB) (mid : Nat)
    (hnd : (db.members.map (fun m => m.id)).Nodup) :
    (delete_member db mid).1
        = .ok (if db.members.any (fun m => m.id == mid) then 1 else 0) ∧
    (delete_member db mid).2.offerings
        = db.offerings.filter (fun o => !(o.member_id == mid)) ∧
    (delete_member db mid).2.members
        = db.members.filter (fun m => !(m.id == mid)) ∧
    (delete_member (delete_member db mid).2 mid).1 = .ok 0 := by
  have hfk : ∀ (offs : List OfferingRow),
      ((offs.filter (fun o => !(o.member_id == mid))).any
        (fun o => o.member_id == mid)) = false := by
    intro offs
    rw [List.any_eq_false]
    intro x hx
    rcases List.mem_filter.mp hx with ⟨_, hpx⟩
    simpa using hpx
  have hcount0 : (db.members.filter (fun m => !(m.id == mid))).countP
      (fun m => m.id == mid) = 0 := by
    rw [List.countP_eq_zero]
    intro x hx
    rcases List.mem_filter.mp hx with ⟨_, hpx⟩
    simpa using hpx
  refine ⟨?_, ?_, ?_, ?_⟩ <;>
    simp [delete_member, delete_member_run, stmtFails, hfk, hcount0,
      countP_id_of_nodup db.members mid hnd]

/-- Witness for C2 at a concrete store: member 10 exists with two
offerings. -/
theorem claim_C2_delete_member_witness :
    (dbEx.members.map (fun m => m.id)).Nodup ∧
    ((delete_member dbEx 10).1
        = .ok (if dbEx.members.any (fun m => m.id == 10) then 1 else 0) ∧
      (delete_member dbEx 10).2.offerings
        = dbEx.offerings.filter (fun o => !(o.member_id == 10)) ∧
      (delete_member dbEx 10).2.members
        = dbEx.members.filter (fun m => !(m.id == 10)) ∧
      (delete_member (delete_member dbEx 10).2 10).1 = .ok 0) :=
  ⟨by decide, claim_C2_delete_member dbEx 10 (by decide)⟩

/-- C3: the `total` of `get_offerings_for_member` is the sum of the
amounts of the returned `log`, a null amount counted as 0, rounded to
two decimal places. -/
theorem claim_C3_total_rounded_sum (db : DB) (mid : Nat) :
    (get_offerings_for_member db mid).total
      = round2 (((get_offerings_for_member db mid).log.map
          (fun o => o.amount.getD 0)).sum) :=
  rfl

/-- C4: the offering log lists the member's offerings most recent first,
it is exactly (a permutation of) the member's offerings, the result does
not depend on the `members` table at all (so a member with no offerings
and a nonexistent member are indistinguishable), and with no offerings
for the id the result is an empty log with total 0. -/
theorem claim_C4_offering_log_order_and_empty (db : DB) (mid : Nat)
    (ms : List MemberRow) :
    ((get_offerings_for_member db mid).log).Pairwise
        (fun a b => b.donated_at ≤ a.donated_at) ∧
    ((get_offerings_for_member db mid).log).Perm
        ((db.offerings.filter (fun o => o.member_id == mid)).map
          _offering_row_to_dict) ∧
    get_offerings_for_member { db with members := ms } mid
        = get_offerings_for_member db mid ∧
    get_offerings_for_member
        { db with
          offerings := db.offerings.filter (fun o => !(o.member_id == mid)) }
        mid
      = ⟨mid, 0, []⟩ := by
  have hlog : (get_offerings_for_member db mid).log
      = (List.insertionSort byDonatedDesc
          (db.offerings.filter (fun o => o.member_id == mid))).map
          _offering_row_to_dict := rfl
  refine ⟨?_, ?_, rfl, ?_⟩
  · rw [hlog]
    exact List.Pairwise.map _ (fun a b h => h)
      (List.sorted_insertionSort byDonatedDesc _)
  · rw [hlog]
    exact (List.perm_insertionSort byDonatedDesc _).map _
  · have hnil : (db.offerings.filter (fun o => !(o.member_id == mid))).filter
        (fun o => o.member_id == mid) = [] := by
      rw [List.filter_eq_nil_iff]
      intro x hx
      rcases List.mem_filter.mp hx with ⟨_, hpx⟩
      simpa using hpx
    simp [get_offerings_for_member, get_offerings_for_member_run, stmtFails,
      hnil, round2, roundHalfEven]

/-- C7 (amended): the `api_add_member` handler maps a constraint violation
or any other unclassified store error to status 500 with a fixed generic
message; the `api_add_offering` and `api_member_offerings` handlers map
every failure to status 400 with a fixed generic message.  In every case
the response detail is a constant independent of the internal error
text, which is therefore never exposed. -/
theorem claim_C7_api_error_translation (msg : String) :
    Api.api_add_member_translate (.error (.constraintViolation msg))
        = ⟨500, none, "Failed to create member"⟩ ∧
    Api.api_add_member_translate (.error (.storeError msg))
        = ⟨500, none, "Failed to create member"⟩ ∧
    Api.api_add_offering_translate (.error (.constraintViolation msg))
        = ⟨400, none, "Failed to add offering"⟩ ∧
    Api.api_add_offering_translate (.error (.storeError msg))
        = ⟨400, none, "Failed to add offering"⟩ ∧
    Api.api_member_offerings_translate (.error (.constraintViolation msg))
        = ⟨400, none, "Failed to fetch offerings"⟩ ∧
    Api.api_member_offerings_translate (.error (.storeError msg))
        = ⟨400, none, "Failed to fetch offerings"⟩ :=
  ⟨rfl, rfl, rfl, rfl, rfl, rfl⟩

/-- C7 counterexample: adding an offering for a nonexistent member fails
with a constraint violation, yet the endpoint responds 400, not 500. -/
theorem claim_C7_counterexample :
    (add_offering dbEx 99 10 "" none).1
        = .error (.constraintViolation "foreign key violation") ∧
    (Api.api_add_offering dbEx 99 10 none none none).1
        = ⟨400, none, "Failed to add offering"⟩ ∧
    (Api.api_add_offering dbEx 99 10 none none none).1.status ≠ 500 :=
  ⟨by decide, by decide, by decide⟩

/-- C9 (amended): `create_member`, `delete_member`, `add_offering` and
`get_offerings_for_member` close the connection on every exit path, the
first three rolling back exactly when the call fails (the read-only
`get_offerings_for_member` never issues an explicit rollback); the
unguarded readers `get_all_members`, `search_members_by_name` and
`get_member_id_by_name` close the connection only on success and never
roll back, so a store failure propagates with the connection
unreleased. -/
theorem claim_C9_connection_discipline (db : DB) (failAt : Option Nat)
    (name2 term : String) (mid : Nat) (amount : ℚ) (note2 : String)
    (don : Option Nat) (lvl ist : Option (Int ⊕ String))
    (g : Option String) (b : Option Nat) (p e bi : Option String) :
    ((create_member_run db name2 lvl ist g b p e bi failAt).conn_closed = true ∧
      (create_member_run db name2 lvl ist g b p e bi failAt).rolled_back
        = !(isOk (create_member_run db name2 lvl ist g b p e bi failAt).result)) ∧
    ((delete_member_run db mid failAt).conn_closed = true ∧
      (delete_member_run db mid failAt).rolled_back
        = !(isOk (delete_member_run db mid failAt).result)) ∧
    ((add_offering_run db mid amount note2 don failAt).conn_closed = true ∧
      (add_offering_run db mid amount note2 don failAt).rolled_back
        = !(isOk (add_offering_run db mid amount note2 don failAt).result)) ∧
    ((get_offerings_for_member_run db mid failAt).conn_closed = true ∧
      (get_offerings_for_member_run db mid failAt).rolled_back = false) ∧
    ((get_all_members_run db failAt).conn_closed
        = isOk (get_all_members_run db failAt).result ∧
      (get_all_members_run db failAt).rolled_back = false) ∧
    ((search_members_by_name_run db term failAt).conn_closed
        = isOk (search_members_by_name_run db term failAt).result ∧
      (search_members_by_name_run db term failAt).rolled_back = false) ∧
    ((get_member_id_by_name_run db name2 failAt).conn_closed
        = isOk (get_member_id_by_name_run db name2 failAt).result ∧
      (get_member_id_by_name_run db name2 failAt).rolled_back = false) := by
  refine ⟨⟨?_, ?_⟩, ⟨?_, ?_⟩, ⟨?_, ?_⟩, ⟨?_, ?_⟩, ⟨?_, ?_⟩, ⟨?_, ?_⟩, ⟨?_, ?_⟩⟩ <;>
  · simp only [create_member_run, delete_member_run, add_offering_run,
      get_offerings_for_member_run, get_all_members_run,
      search_members_by_name_run, get_member_id_by_name_run]
    repeat' split
    all_goals simp [isOk]

/-- C9 counterexample: a store failure on the single statement of
`get_all_members` propagates as an error while the connection was never
closed and no rollback was issued. -/
theorem claim_C9_counterexample :
    isOk (get_all_members_run dbEx (some 0)).result = false ∧
    (get_all_members_run dbEx (some 0)).conn_closed = false ∧
    (get_all_members_run dbEx (some 0)).rolled_back = false :=
  ⟨by decide, by decide, by decide⟩

/-- Packing a plain-range code point and reading it back is the
identity. -/
theorem toNat_ofNat_valid (n : Nat) (h : n < 55296) :
    (Char.ofNat n).toNat = n := by
  rw [Char.ofNat, dif_pos (Or.inl h)]
  rfl

/-- Lowercasing can only produce a code point below 97 if it left the
character unchanged. -/
theorem lowerChar_preimage (c w : Char) (hw : w.toNat < 97)
    (h : lowerChar c = w) : c = w := by
  unfold lowerChar at h
  split at h
  · rename_i hcond
    exfalso
    have h90 : c.toNat + 32 < 55296 := by omega
    have hval := toNat_ofNat_valid (c.toNat + 32) h90
    rw [h] at hval
    omega
  · exact h

/-- A term with no wildcard characters lowercases to a wildcard-free
pattern fragment (`%`, `_` and the backslash are all below 97 and are
not produced by the shift). -/
theorem lowerStr_wildFree (term : String)
    (hw : ∀ c ∈ term.toList, c ≠ '%' ∧ c ≠ '_' ∧ c ≠ '\\') :
    wildFree (lowerStr term) := by
  intro c hc
  rcases List.mem_map.mp hc with ⟨c0, hc0, rfl⟩
  refine ⟨?_, ?_, ?_⟩ <;> intro h
  · exact (hw c0 hc0).1 (lowerChar_preimage c0 '%' (by decide) h)
  · exact (hw c0 hc0).2.1 (lowerChar_preimage c0 '_' (by decide) h)
  · exact (hw c0 hc0).2.2 (lowerChar_preimage c0 '\\' (by decide) h)

/-- `isPrefixOf` on code points agrees with the prepend decomposition. -/
theorem isPrefixOf_iff_append (t : List Char) :
    ∀ s : List Char, t.isPrefixOf s = true ↔ ∃ b, s = t ++ b := by
  induction t with
  | nil => intro s; simp [List.isPrefixOf]
  | cons c t ih =>
    intro s
    cases s with
    | nil => simp [List.isPrefixOf]
    | cons d s =>
      show (c == d && List.isPrefixOf t s) = true ↔ _
      simp only [Bool.and_eq_true, beq_iff_eq, ih, List.cons_append,
        List.cons.injEq]
      constructor
      · rintro ⟨rfl, b, rfl⟩
        exact ⟨b, rfl, rfl⟩
      · rintro ⟨b, rfl, rfl⟩
        exact ⟨rfl, b, rfl⟩

/-- A leading `%` matches exactly when the rest of the pattern matches
some suffix. -/
theorem likeMatch_pct (ps s : List Char) :
    likeMatch ('%' :: ps) s = true
      ↔ ∃ b, b <:+ s ∧ likeMatch ps b = true := by
  rw [likeMatch.eq_def]
  simp [List.any_eq_true, List.mem_tails]

/-- A single `%` matches every string. -/
theorem likeMatch_pct_nil (s : List Char) : likeMatch [ '%' ] s = true := by
  rw [likeMatch_pct]
  exact ⟨[], List.nil_suffix, rfl⟩

/-- A wildcard-free fragment before a `%` consumes exactly itself. -/
theorem likeMatch_append_pct (t : List Char) (hw : wildFree t)
    (ps : List Char) :
    ∀ s : List Char, likeMatch (t ++ '%' :: ps) s = true
      ↔ ∃ b, s = t ++ b ∧ likeMatch ('%' :: ps) b = true := by
  induction t with
  | nil => intro s; simp
  | cons c t ih =>
    intro s
    have hc := hw c (List.mem_cons_self c t)
    have hw2 : wildFree t := fun x hx => hw x (List.mem_cons_of_mem c hx)
    cases s with
    | nil =>
      rw [List.cons_append, likeMatch.eq_def]
      simp [hc.1, hc.2.1, hc.2.2]
    | cons d s =>
      rw [List.cons_append, likeMatch.eq_def]
      simp only [if_neg hc.1, if_neg hc.2.1, if_neg hc.2.2,
        Bool.and_eq_true, beq_iff_eq, ih hw2]
      constructor
      · rintro ⟨rfl, b, rfl, hb⟩
        exact ⟨b, rfl, hb⟩
      · rintro ⟨b, heq, hb⟩
        injection heq with h1 h2
        subst h1
        subst h2
        exact ⟨rfl, b, rfl, hb⟩

/-- The `ILIKE` filter with pattern `%t%`, for wildcard-free `t`, is
exactly the substring test: the code's filter and the specification's
predicate coincide on such terms. -/
theorem likeMatch_eq_containsSub (t : List Char) (hw : wildFree t)
    (s : List Char) :
    likeMatch ('%' :: (t ++ [ '%' ])) s = containsSub t s := by
  have hiff : likeMatch ('%' :: (t ++ [ '%' ])) s = true
      ↔ containsSub t s = true := by
    rw [likeMatch_pct]
    simp only [containsSub, List.any_eq_true, List.mem_tails]
    constructor
    · rintro ⟨b, hsuf, hm⟩
      rcases (likeMatch_append_pct t hw [] b).mp
        (by simpa using hm) with ⟨e, rfl, _⟩
      exact ⟨t ++ e, hsuf, (isPrefixOf_iff_append t (t ++ e)).mpr ⟨e, rfl⟩⟩
    · rintro ⟨b, hsuf, hpre⟩
      rcases (isPrefixOf_iff_append t b).mp hpre with ⟨e, rfl⟩
      refine ⟨t ++ e, hsuf, ?_⟩
      have := (likeMatch_append_pct t hw [] (t ++ e)).mpr
        ⟨e, rfl, likeMatch_pct_nil e⟩
      simpa using this
  by_cases h : containsSub t s = true
  · rw [h, hiff.mpr h]
  · have h2 : ¬ likeMatch ('%' :: (t ++ [ '%' ])) s = true :=
      fun hh => h (hiff.mp hh)
    rw [Bool.not_eq_true] at h h2
    rw [h, h2]

/-- C8 (amended): for every non-empty term containing none of the `LIKE`
metacharacters `%`, `_`, `\`, the search returns exactly the members
whose name contains the term as a case-insensitive substring, as
`{id, name}` records ordered by name ascending. -/
theorem claim_C8_search_substring (db : DB) (term : String)
    (_hne : term ≠ "")
    (hw : ∀ c ∈ term.toList, c ≠ '%' ∧ c ≠ '_' ∧ c ≠ '\\') :
    ∃ res, search_members_by_name db term = .ok res ∧
      res.Perm ((db.members.filter
          (fun m => name_contains_ci m.name term)).map _member_row_to_dict) ∧
      res.Pairwise (fun a b => a.name ≤ b.name) := by
  have hwf : wildFree (lowerStr term) := lowerStr_wildFree term hw
  have hfilter : db.members.filter
        (fun m => likeMatch (likePattern term) (lowerStr m.name))
      = db.members.filter (fun m => name_contains_ci m.name term) := by
    apply List.filter_congr
    intro m _
    simp only [likePattern, name_contains_ci]
    exact likeMatch_eq_containsSub (lowerStr term) hwf (lowerStr m.name)
  refine ⟨_, rfl, ?_, ?_⟩
  · show ((List.insertionSort byName (db.members.filter
        (fun m => likeMatch (likePattern term) (lowerStr m.name)))).map
        _member_row_to_dict).Perm _
    rw [hfilter]
    exact (List.perm_insertionSort byName _).map _
  · show ((List.insertionSort byName (db.members.filter
        (fun m => likeMatch (likePattern term) (lowerStr m.name)))).map
        _member_row_to_dict).Pairwise _
    exact List.Pairwise.map _ (fun a b h => h)
      (List.sorted_insertionSort byName _)

/-- Witness for C8 at a concrete store: searching "mei" finds the member
named "aMeiCa". -/
theorem claim_C8_search_substring_witness :
    ("mei" ≠ "") ∧
    (∀ c ∈ "mei".toList, c ≠ '%' ∧ c ≠ '_' ∧ c ≠ '\\') ∧
    (∃ res, search_members_by_name dbEx "mei" = .ok res ∧
      res.Perm ((dbEx.members.filter
          (fun m => name_contains_ci m.name "mei")).map _member_row_to_dict) ∧
      res.Pairwise (fun a b => a.name ≤ b.name)) :=
  ⟨by decide, by decide,
    claim_C8_search_substring dbEx "mei" (by decide) (by decide)⟩

/-- C8 counterexample: the unescaped term is interpolated into the
`ILIKE` pattern, so the term "a_c" (with the single-character wildcard
`_`) returns the member named "abc" although "abc" does not contain
"a_c" as a substring. -/
theorem claim_C8_counterexample :
    search_members_by_name dbEx "a_c" = .ok [⟨12, "abc"⟩] ∧
    name_contains_ci "abc" "a_c" = false :=
  ⟨by decide, by decide⟩

/-- C10: the legacy `delete_member` of src/app.py swallows every failure
(returning `None` and rolling back instead of propagating), so the
legacy `DELETE /members/{member_id}` endpoint responds
`{"status": "deleted"}` for every id — including nonexistent ids and
calls whose store delete failed. -/
theorem claim_C10_legacy_delete_always_deleted (db : DB) (mid : Nat)
    (failAt : Option Nat) :
    (Legacy.api_delete_member db mid failAt).1 = ⟨200, "deleted"⟩ ∧
    (Legacy.delete_member_run db mid failAt).result = .ok () ∧
    (Legacy.delete_member_run db mid (some 0)).db = db ∧
    (Legacy.delete_member_run db mid (some 0)).rolled_back = true := by
  refine ⟨rfl, ?_, rfl, rfl⟩
  simp only [Legacy.delete_member_run]
  repeat' split
  all_goals rfl

end Sanfu
